import Mathlib

/-!
Verification development for the `ducknetview` terminal network dashboard.

The Go sources are shallowly embedded here:
* `probe/ifaces_filter.go`  → `IfaceKind`, `ClassifyIface`
* `probe/net.go`            → `NetSampler`, `NetSampler.Sample`
* `probe/util.go`           → `ClampHistory`
* `probe/ports.go`          → `connProto`, `isListening`, `ListListening`
* `probe/procs.go`          → `ProcNet`, `TopProcsByConnections`
* `ui/model.go`             → `UiModel`, `UiModel.update`, `highlightFold`

Modelling conventions:
* Go `float64` rate arithmetic is modelled with exact rationals `ℚ`; all
  quantities exercised by the theorems are far below 2^53 so every Go
  float operation involved is exact.
* Go `uint64` counters are `Nat` with subtraction performed modulo 2^64.
* Go `time.Time` values are modelled as rational "seconds" timestamps; the
  Go zero time is the rational 0.
* The gopsutil / stdlib data sources are external collaborators: their
  results are passed to the embedded functions as explicit arguments
  (either a value or an error), exactly as the Go code receives them.
* Go `error` values are modelled as `String` descriptions.
-/

/-- Description of a Go `error` value. -/
abbrev GoErr := String

/-- Interface classification, from `probe/ifaces_filter.go` (`IfaceKind`). -/
inductive IfaceKind where
  | unknown
  | loopback
  | dockerBridge
  | linuxBridge
  | veth
  | tunTap
  | virt
  | physical
deriving DecidableEq, Repr

/-- Name-based interface classifier, from `probe/ifaces_filter.go`
(`ClassifyIface`): a pure cascade of name tests. -/
def ClassifyIface (name : String) : IfaceKind :=
  if name = "lo" ∨ name.startsWith "lo" then .loopback
  else if name = "docker0" ∨ name.startsWith "docker" then .dockerBridge
  else if name.startsWith "br-" ∨ name = "virbr0" ∨ name.startsWith "virbr" then .linuxBridge
  else if name.startsWith "veth" then .veth
  else if name.startsWith "tun" ∨ name.startsWith "tap" then .tunTap
  else if name.startsWith "wg" then .virt
  else if name.startsWith "en" ∨ name.startsWith "eth" ∨ name.startsWith "wl" then .physical
  else .unknown

/-- One `gopsutil` per-interface counter row (`gnet.IOCountersStat`):
only the fields `probe/net.go` reads.  The byte counters are `uint64`. -/
structure IOCountersStat where
  name : String
  bytesRecv : Nat
  bytesSent : Nat
deriving DecidableEq, Repr

/-- One stdlib `net.Interface` together with the address strings obtained
from `nif.Addrs()` (whose error the Go code discards). -/
structure GoNetInterface where
  name : String
  mtu : Int
  hardware : String
  isUp : Bool
  addrs : List String
deriving DecidableEq, Repr

/-- `probe.IfaceInfo` from `probe/net.go`. -/
structure IfaceInfo where
  name : String
  mtu : Int
  hardware : String
  addrs : List String
  isUp : Bool
  rxBps : ℚ
  txBps : ℚ
  rxTotal : Nat
  txTotal : Nat
  kind : IfaceKind
deriving DecidableEq, Repr

/-- `probe.NetSnapshot` from `probe/net.go`. -/
structure NetSnapshot where
  hostname : String
  uptime : ℚ
  ifaces : List IfaceInfo
  takenAt : ℚ
deriving DecidableEq, Repr

/-- Sampler state from `probe/net.go` (`NetSampler`): the retained
last-counters map (a Go `map[string]gnet.IOCountersStat`, modelled as an
association list with unique keys) and the last sample time. -/
structure NetSampler where
  last : List (String × IOCountersStat)
  lastAt : ℚ
deriving DecidableEq, Repr

/-- `probe.NewNetSampler`: empty counters map, zero time. -/
def NewNetSampler : NetSampler := { last := [], lastAt := 0 }

/-- Insertion into a Go string-keyed map, modelled on an association list:
an existing key is overwritten in place, a new key is appended. -/
def mapSet (m : List (String × IOCountersStat)) (k : String) (v : IOCountersStat) :
    List (String × IOCountersStat) :=
  match m with
  | [] => [(k, v)]
  | (k1, v1) :: t => if k1 = k then (k, v) :: t else (k1, v1) :: mapSet t k v

/-- The `cur` map built in `Sample`: `for _, c := range counters \x7b cur[c.Name] = c \x7d`. -/
def mkCur (counters : List IOCountersStat) : List (String × IOCountersStat) :=
  counters.foldl (fun m c => mapSet m c.name c) []

/-- Go `uint64` subtraction `a - b` (wraps modulo 2^64). -/
def u64sub (a b : Nat) : Nat := (a + 2 ^ 64 - b % 2 ^ 64) % 2 ^ 64

/-- The elapsed-time guard in `Sample` (`probe/net.go` lines 71-74):
`dt := now.Sub(s.lastAt).Seconds(); if dt <= 0 \x7b dt = 1 \x7d`.
Note it replaces only non-positive elapsed times by 1. -/
def clampDt (dt : ℚ) : ℚ := if dt ≤ 0 then 1 else dt

/-- The per-interface body of the loop in `Sample`: build an `IfaceInfo`
from the stdlib interface record, fill totals when the `cur` map has a
counter row for the name, and fill rates only when the retained `last`
map also has one. -/
def mkIfaceInfo (last cur : List (String × IOCountersStat)) (dt : ℚ)
    (nif : GoNetInterface) : IfaceInfo :=
  let base : IfaceInfo :=
    { name := nif.name, mtu := nif.mtu, hardware := nif.hardware,
      addrs := nif.addrs, isUp := nif.isUp,
      rxBps := 0, txBps := 0, rxTotal := 0, txTotal := 0,
      kind := ClassifyIface nif.name }
  match cur.lookup nif.name with
  | none => base
  | some c =>
    let withTot := { base with rxTotal := c.bytesRecv, txTotal := c.bytesSent }
    match last.lookup nif.name with
    | none => withTot
    | some prev =>
      { withTot with
        rxBps := (u64sub c.bytesRecv prev.bytesRecv : ℚ) / dt,
        txBps := (u64sub c.bytesSent prev.bytesSent : ℚ) / dt }

/-- `NetSampler.Sample` from `probe/net.go`.  The collaborator results are
explicit arguments: `now` is `time.Now()`, `host` is the (error-swallowed)
`host.Info()` result, `ifsRes` is `net.Interfaces()` and `countersRes` is
`gnet.IOCounters(true)`.  Returns the updated sampler state together with
the snapshot-or-error, mirroring the Go receiver mutation. -/
def NetSampler.Sample (s : NetSampler) (now : ℚ)
    (host : Option (String × ℚ))
    (ifsRes : Except GoErr (List GoNetInterface))
    (countersRes : Except GoErr (List IOCountersStat)) :
    NetSampler × Except GoErr NetSnapshot :=
  let hostName := match host with | some h => h.1 | none => ""
  let uptime : ℚ := match host with | some h => h.2 | none => 0
  match ifsRes with
  | .error e => (s, .error e)
  | .ok ifs =>
    match countersRes with
    | .error e => (s, .error e)
    | .ok counters =>
      let cur := mkCur counters
      let dt := clampDt (now - s.lastAt)
      let out := ifs.map (mkIfaceInfo s.last cur dt)
      ({ last := cur, lastAt := now },
       .ok { hostname := hostName, uptime := uptime, ifaces := out, takenAt := now })

/-- `probe.ClampHistory` from `probe/util.go`: a non-positive cap yields
the empty slice, a short-enough slice is returned as is, otherwise the
last `max` entries (`s[len(s)-max:]`) are kept.  The cap is a Go `int`. -/
def ClampHistory {α : Type} (s : List α) (max : Int) : List α :=
  if max ≤ 0 then []
  else if (s.length : Int) ≤ max then s
  else s.drop (s.length - max.toNat)

/-- The last `n` entries of a list (helper for reasoning about
`ClampHistory`). -/
def takeLast {α : Type} (n : Nat) (l : List α) : List α :=
  l.drop (l.length - n)

/-- Go socket type constant `syscall.SOCK_STREAM`. -/
def sockStream : Nat := 1

/-- Go socket type constant `syscall.SOCK_DGRAM`. -/
def sockDgram : Nat := 2

/-- One `gopsutil` connection row (`gnet.ConnectionStat`): the fields read
by `probe/ports.go` and `probe/procs.go`.  `pid` is a Go `int32`. -/
structure ConnectionStat where
  typ : Nat
  status : String
  laddrIP : String
  laddrPort : Nat
  pid : Int
deriving DecidableEq, Repr

/-- `probe.ListenPort` from `probe/ports.go` (the Go field `Local` is
named `localAddr` here because `local` is reserved in Lean). -/
structure ListenPort where
  proto : String
  localAddr : String
  pid : Int
  process : String
deriving DecidableEq, Repr

/-- `connProto` from `probe/ports.go`. -/
def connProto (c : ConnectionStat) : String :=
  if c.typ = sockStream then "tcp"
  else if c.typ = sockDgram then "udp"
  else "net"

/-- `isListening` from `probe/ports.go`: TCP sockets whose status is
`LISTEN`, UDP sockets with a non-zero local port, nothing else. -/
def isListening (c : ConnectionStat) : Bool :=
  if c.typ = sockStream then c.status = "LISTEN"
  else if c.typ = sockDgram then c.laddrPort ≠ 0
  else false

/-- Decimal rendering of the Go `%d` verb for an `int` (used in the
`ip:port` string). -/
def goIntStr (n : Nat) : String := toString n

/-- The `ListenPort` row built in `ListListening` for one connection.
Best-effort process name resolution (`process.NewProcess` / `p.Name()`)
is a collaborator, passed as `resolve`; a failed resolution leaves the
Go zero value `""`. -/
def toListenPort (resolve : Int → Option String) (c : ConnectionStat) : ListenPort :=
  { proto := connProto c,
    localAddr := c.laddrIP ++ ":" ++ goIntStr c.laddrPort,
    pid := c.pid,
    process := if 0 < c.pid then (resolve c.pid).getD "" else "" }

/-- The `sort.Slice` comparator of `ListListening` as a total (non-strict)
order: proto, then local address, then pid, each ascending.  Go string
`<` is bytewise lexicographic, which on valid UTF-8 agrees with the
code-point order used by Lean's `String` order. -/
def portLE (a b : ListenPort) : Bool :=
  if a.proto ≠ b.proto then decide (a.proto < b.proto)
  else if a.localAddr ≠ b.localAddr then decide (a.localAddr < b.localAddr)
  else decide (a.pid ≤ b.pid)

/-- `portLE` as a relation (for the sorting lemmas). -/
def portLEP (a b : ListenPort) : Prop := portLE a b = true

instance : DecidableRel portLEP :=
  fun a b => inferInstanceAs (Decidable (portLE a b = true))

/-- `probe.ListListening` from `probe/ports.go`: keep exactly the
connections satisfying `isListening`, build their rows, sort.
The connection enumeration result is the explicit argument `conns`
(`gnet.Connections("all")`); its error case returns the error unchanged,
which the claims do not exercise, so the embedding takes the success
value.  `sort.Slice` with a total comparator produces a permutation
sorted by it, modelled here by `insertionSort` with that order. -/
def ListListening (resolve : Int → Option String) (conns : List ConnectionStat) :
    List ListenPort :=
  ((conns.filter isListening).map (toListenPort resolve)).insertionSort portLEP

/-- `probe.ProcNet` from `probe/procs.go`. -/
structure ProcNet where
  pid : Int
  name : String
  connCount : Nat
  listenCount : Nat
deriving DecidableEq, Repr

/-- One step of the per-pid aggregation map in `TopProcsByConnections`:
find the entry for `pid` (creating it on first sight) and bump its
connection count, and its listen count when the status is `LISTEN`.
The Go `map[int32]*ProcNet` is modelled as an association list in
first-occurrence order. -/
def bumpProc (l : List ProcNet) (pid : Int) (listen : Bool) : List ProcNet :=
  match l with
  | [] => [{ pid := pid, name := "", connCount := 1,
             listenCount := if listen then 1 else 0 }]
  | p :: t =>
    if p.pid = pid then
      { p with connCount := p.connCount + 1,
               listenCount := p.listenCount + (if listen then 1 else 0) } :: t
    else p :: bumpProc t pid listen

/-- The aggregation loop of `TopProcsByConnections`: connections with
`pid <= 0` are skipped, the rest are tallied per pid. -/
def aggConns (conns : List ConnectionStat) : List ProcNet :=
  conns.foldl
    (fun acc c => if c.pid ≤ 0 then acc else bumpProc acc c.pid (c.status = "LISTEN"))
    []

/-- The name-filling pass of `TopProcsByConnections` (best-effort
`process.NewProcess` / `p.Name()`, modelled by `resolve`). -/
def fillProcName (resolve : Int → Option String) (p : ProcNet) : ProcNet :=
  if p.name = "" then { p with name := (resolve p.pid).getD "" } else p

/-- The `sort.Slice` comparator of `TopProcsByConnections` as a total
(non-strict) order: connection count descending, pid ascending. -/
def procLE (a b : ProcNet) : Bool :=
  if a.connCount ≠ b.connCount then decide (b.connCount < a.connCount)
  else decide (a.pid ≤ b.pid)

/-- `procLE` as a relation (for the sorting lemmas). -/
def procLEP (a b : ProcNet) : Prop := procLE a b = true

instance : DecidableRel procLEP :=
  fun a b => inferInstanceAs (Decidable (procLE a b = true))

/-- `probe.TopProcsByConnections` from `probe/procs.go`: aggregate
connections per pid, resolve names, sort by the ranking key, truncate to
`limit` when `limit > 0`.  `sort.Slice` over entries with pairwise
distinct pids has a unique sorted result, so the nondeterministic Go map
iteration order is irrelevant and `insertionSort` of the
first-occurrence order is a faithful model.  The enumeration error case (returned
unchanged in Go) is not exercised by the claims, so the embedding takes
the success value `conns`. -/
def TopProcsByConnections (limit : Int) (resolve : Int → Option String)
    (conns : List ConnectionStat) : List ProcNet :=
  let out := (aggConns conns).map (fillProcName resolve)
  let sorted := out.insertionSort procLEP
  if 0 < limit ∧ limit < (sorted.length : Int) then sorted.take limit.toNat else sorted

/-- The UI model state from `ui/model.go` (`Model`), restricted to the
fields the verified update paths read or write.  The bubbles list widget
is an external collaborator; of it the model keeps what the update code
observes: the item names (`ifaceItem.name`, in order) and the cursor
index (`Index()` / `Select(i)`).  Rendering-only fields (viewports,
cached text, search inputs) are omitted. -/
structure UiModel where
  w : Int
  selectedIface : String
  rxHist : List ℚ
  txHist : List ℚ
  listItems : List String
  listIndex : Nat
  lastSnap : NetSnapshot
  err : Option GoErr
  ports : List ListenPort
  procs : List ProcNet
  externalIP : String
  externalIPErr : Option GoErr
  externalIPUpdatedAt : ℚ
deriving DecidableEq, Repr

/-- The messages whose handlers are embedded, from `ui/model.go`
(`snapMsg`, `errMsg`, `externalIPMsg`, `portsMsg`, `procsMsg`), together
with `ifaceNav i`, which stands for any `tea.Msg` that is routed to the
interfaces tab and makes the bubbles list widget move its cursor to row
`i` (the widget itself is an external collaborator; `i` is its result). -/
inductive Msg where
  | snap (s : NetSnapshot)
  | errM (e : GoErr)
  | extIP (ip : String) (err : Option GoErr)
  | ports (ps : List ListenPort)
  | procs (ps : List ProcNet)
  | ifaceNav (i : Nat)

/-- The `snapMsg` handler of `ui/model.go` (v0.0.4) lines 284-350 is
embedded as three functions below; rendering statements are omitted.
The selection reconciliation block of the handler (lines 316-329):
first item when nothing was selected; otherwise move the cursor to the
previous name when it is found (the `break` of the Go loop is the first
match, `findIdx?`); otherwise the positional fallback.  `prevSel` and
`prevIndex` are the values captured before `SetItems`. -/
def reconcileSelection (m2 : UiModel) (prevSel : String) (prevIndex : Nat) : UiModel :=
  if m2.selectedIface = "" ∧ m2.listItems ≠ [] then
    { m2 with listIndex := 0, selectedIface := m2.listItems.getD 0 "" }
  else if prevSel ≠ "" then
    match m2.listItems.findIdx? (fun n => n = prevSel) with
    | some i => { m2 with listIndex := i }
    | none => m2
  else if prevIndex < m2.listItems.length then
    { m2 with listIndex := prevIndex, selectedIface := m2.listItems.getD prevIndex "" }
  else m2

/-- The history block of the handler (lines 331-341): append the selected
interface's rates (first matching name, as the Go loop breaks) to both
buffers and clamp them to `max(30, min(200, w/2))`. -/
def appendSelectedHistory (m3 : UiModel) (snap : NetSnapshot) : UiModel :=
  match snap.ifaces.find? (fun ii => ii.name = m3.selectedIface) with
  | some ii =>
    let maxHist : Int := max 30 (min 200 (Int.tdiv m3.w 2))
    { m3 with rxHist := ClampHistory (m3.rxHist ++ [ii.rxBps]) maxHist,
              txHist := ClampHistory (m3.txHist ++ [ii.txBps]) maxHist }
  | none => m3

/-- The full `snapMsg` handler: store snapshot, clear error, rebuild the
item names, reconcile, append history. -/
def applySnap (m : UiModel) (snap : NetSnapshot) : UiModel :=
  let m1 := { m with lastSnap := snap, err := none }
  let prevSel := m1.selectedIface
  let prevIndex := m1.listIndex
  let m2 := { m1 with listItems := snap.ifaces.map (fun ii => ii.name) }
  appendSelectedHistory (reconcileSelection m2 prevSel prevIndex) snap

/-- The interfaces-tab auto-follow block from `ui/model.go` (v0.0.4)
lines 426-452: after the list widget has processed the message (its
cursor now sits at `newIndex`), a changed selected item name switches
`selectedIface` and empties both history buffers in the same step. -/
def applyIfaceNav (m : UiModel) (newIndex : Nat) : UiModel :=
  let m1 := { m with listIndex := newIndex }
  match m1.listItems.get? newIndex with
  | some name =>
    if m1.selectedIface ≠ name then
      { m1 with selectedIface := name, rxHist := [], txHist := [] }
    else m1
  | none => m1

/-- The message dispatch of `Model.Update` from `ui/model.go` (v0.0.4),
restricted to the handlers above.  `now` is `time.Now()` at processing
time (read by the `externalIPMsg` success branch). -/
def UiModel.update (m : UiModel) (now : ℚ) : Msg → UiModel
  | .snap s => applySnap m s
  | .errM e => { m with err := some e }
  | .extIP ip none =>
    { m with externalIP := ip, externalIPErr := none, externalIPUpdatedAt := now }
  | .extIP _ (some e) => { m with externalIPErr := some e }
  | .ports ps => { m with ports := ps }
  | .procs ps => { m with procs := ps }
  | .ifaceNav i => applyIfaceNav m i

/-- Go `unicode.IsSpace` restricted to Latin-1 (the white space the
claims exercise); used by `strings.TrimSpace`. -/
def isSpaceGo (c : Char) : Bool :=
  c = ' ' ∨ c = '\t' ∨ c = '\n' ∨ (c.toNat = 11) ∨ (c.toNat = 12) ∨
  c = '\r' ∨ (c.toNat = 0x85) ∨ (c.toNat = 0xA0)

/-- Go `strings.TrimSpace` on a rune sequence. -/
def trimSpace (s : List Char) : List Char :=
  ((s.dropWhile isSpaceGo).reverse.dropWhile isSpaceGo).reverse

/-- Go `unicode.ToLower` simple case mapping, restricted to ASCII (it is
the identity on every non-ASCII character the claims exercise, e.g. the
already-lowercase U+00E9). -/
def goToLower (c : Char) : Char := c.toLower

/-- UTF-8 encoding of one code point, as Go lays out string bytes. -/
def utf8Bytes (c : Char) : List Nat :=
  let n := c.toNat
  if n < 0x80 then [n]
  else if n < 0x800 then
    [0xC0 + n / 0x40, 0x80 + n % 0x40]
  else if n < 0x10000 then
    [0xE0 + n / 0x1000, 0x80 + (n / 0x40) % 0x40, 0x80 + n % 0x40]
  else
    [0xF0 + n / 0x40000, 0x80 + (n / 0x1000) % 0x40, 0x80 + (n / 0x40) % 0x40, 0x80 + n % 0x40]

/-- The UTF-8 bytes of a Go string, given its runes. -/
def strBytes (s : List Char) : List Nat := s.flatMap utf8Bytes

/-- Go `strings.Index` over byte sequences: the byte offset of the first
occurrence of `needle` in `hay`, `none` for Go's `-1`. -/
def byteIndex (hay needle : List Nat) : Option Nat :=
  if needle.isPrefixOf hay then some 0
  else
    match hay with
    | [] => none
    | _ :: t => (byteIndex t needle).map (· + 1)

/-- Go slice expression `l[i:j]`: `none` models the runtime panic when
`i > j` or `j > len(l)`. -/
def goSlice {α : Type} (l : List α) (i j : Nat) : Option (List α) :=
  if i ≤ j ∧ j ≤ l.length then some ((l.drop i).take (j - i)) else none

/-- One `WriteString` call of `highlightFold`'s output builder: a plain
span, or a span wrapped in the highlight style (`hlStyle.Render`). -/
inductive HlSeg where
  | plain : List Char → HlSeg
  | marked : List Char → HlSeg
deriving DecidableEq, Repr

/-- The search loop of `highlightFold` (`ui/model.go` lines 823-841),
faithfully keeping the index confusion of the Go code: `i` and the match
position `j` are byte offsets into the lowered string `ls` (as produced
by `strings.Index` on `ls[i:]`), yet the code slices the rune array `rs`
with them (`rs[i:j]`, `rs[j:end]`, `i = end` after clamping `end` to
`len(rs)`).  `none` models a panic or non-termination (`fuel` bounds the
iterations; the loop has no other exit than its `break`). -/
def hlLoop (rs : List Char) (lsB lqB : List Nat) (lqRunes : Nat) :
    Nat → Nat → Option (List HlSeg)
  | _, 0 => none
  | i, fuel + 1 =>
    match byteIndex (lsB.drop i) lqB with
    | none => (goSlice rs i rs.length).map (fun tail => [HlSeg.plain tail])
    | some j0 =>
      let j := j0 + i
      let endI := min (j + lqRunes) rs.length
      match goSlice rs i j, goSlice rs j endI with
      | some pre, some mat =>
        (hlLoop rs lsB lqB lqRunes endI fuel).map
          (fun rest => HlSeg.plain pre :: HlSeg.marked mat :: rest)
      | _, _ => none

/-- `highlightFold` from `ui/model.go` lines 810-844: trim the query,
return the text unchanged when it is empty, otherwise lower both sides
and run the occurrence loop.  The output is the sequence of builder
writes (`HlSeg.marked` spans are the `hlStyle.Render`-wrapped ones). -/
def highlightFold (s q : String) (fuel : Nat) : Option (List HlSeg) :=
  let q1 := trimSpace q.toList
  if q1 = [] then some [HlSeg.plain s.toList]
  else
    let rs := s.toList
    let lsC := rs.map goToLower
    let lqC := q1.map goToLower
    hlLoop rs (strBytes lsC) (strBytes lqC) lqC.length 0 fuel

theorem u64sub_of_le (a b : Nat) (hba : b ≤ a) (ha : a < 2 ^ 64) :
    u64sub a b = a - b := by
  unfold u64sub
  have hb : b % 2 ^ 64 = b := Nat.mod_eq_of_lt (lt_of_le_of_lt hba ha)
  rw [hb]
  have h1 : a + 2 ^ 64 - b = (a - b) + 2 ^ 64 := by omega
  rw [h1, Nat.add_mod_right]
  exact Nat.mod_eq_of_lt (by omega)

theorem Sample_ok_eq (s : NetSampler) (now : ℚ) (host : Option (String × ℚ))
    (ifs : List GoNetInterface) (counters : List IOCountersStat) :
    NetSampler.Sample s now host (.ok ifs) (.ok counters) =
      ({ last := mkCur counters, lastAt := now },
       .ok { hostname := match host with | some h => h.1 | none => "",
             uptime := match host with | some h => h.2 | none => 0,
             ifaces := ifs.map
               (mkIfaceInfo s.last (mkCur counters) (clampDt (now - s.lastAt))),
             takenAt := now }) := rfl

theorem mkIfaceInfo_name (last cur : List (String × IOCountersStat)) (dt : ℚ)
    (nif : GoNetInterface) : (mkIfaceInfo last cur dt nif).name = nif.name := by
  unfold mkIfaceInfo
  cases cur.lookup nif.name <;> [skip; cases last.lookup nif.name] <;> rfl

theorem mkIfaceInfo_rates (last cur : List (String × IOCountersStat)) (dt : ℚ)
    (nif : GoNetInterface) (c prev : IOCountersStat)
    (hc : cur.lookup nif.name = some c) (hp : last.lookup nif.name = some prev) :
    (mkIfaceInfo last cur dt nif).rxBps = (u64sub c.bytesRecv prev.bytesRecv : ℚ) / dt ∧
    (mkIfaceInfo last cur dt nif).txBps = (u64sub c.bytesSent prev.bytesSent : ℚ) / dt := by
  unfold mkIfaceInfo
  rw [hc, hp]
  exact ⟨rfl, rfl⟩

theorem mkIfaceInfo_cold (last cur : List (String × IOCountersStat)) (dt : ℚ)
    (nif : GoNetInterface) (hp : last.lookup nif.name = none) :
    (mkIfaceInfo last cur dt nif).rxBps = 0 ∧ (mkIfaceInfo last cur dt nif).txBps = 0 := by
  unfold mkIfaceInfo
  cases hc : cur.lookup nif.name
  · exact ⟨rfl, rfl⟩
  · rw [hp]; exact ⟨rfl, rfl⟩

theorem clampDt_pos (dt : ℚ) (h : 0 < dt) : clampDt dt = dt := by
  unfold clampDt
  rw [if_neg (by linarith)]

theorem clampDt_nonpos (dt : ℚ) (h : dt ≤ 0) : clampDt dt = 1 := by
  unfold clampDt
  rw [if_pos h]

/-- C1 counterexample: the claim says that a call with elapsed time
strictly between 0 and 1 second computes rates with divisor 1.  At
Δt = 1/2 s with a 100-byte RX delta the code yields 200 B/s, the
result of dividing by 1/2 — not the 100 B/s that divisor 1 would give. -/
theorem sample_subsecond_divisor_cex :
    ((NetSampler.Sample
        { last := [("eth0", { name := "eth0", bytesRecv := 0, bytesSent := 0 })],
          lastAt := 10 }
        (10 + 1 / 2) none
        (.ok [{ name := "eth0", mtu := 1500, hardware := "", isUp := true, addrs := [] }])
        (.ok [{ name := "eth0", bytesRecv := 100, bytesSent := 200 }])).2.map
        (fun snap => snap.ifaces.map (fun ii => ii.rxBps)) = .ok [200]) ∧
    (0 : ℚ) < (10 + 1 / 2) - 10 ∧ (10 + 1 / 2 : ℚ) - 10 < 1 ∧ (200 : ℚ) ≠ 100 / 1 := by
  refine ⟨?_, by norm_num, by norm_num, by norm_num⟩
  simp only [NetSampler.Sample, mkCur, mapSet, List.foldl, mkIfaceInfo, clampDt, u64sub,
    List.map, List.lookup, Except.map]
  norm_num

/-- C1 (amended): in `NetSampler.Sample` the elapsed time is replaced by
1 second only when it is non-positive; for every positive elapsed time
Δt — sub-second values included — the per-interface RX/TX rates are the
counter deltas divided by Δt itself. -/
theorem sample_divisor_amended (s : NetSampler) (now : ℚ)
    (host : Option (String × ℚ)) (ifs : List GoNetInterface)
    (counters : List IOCountersStat) (st : NetSampler) (snap : NetSnapshot)
    (hrun : NetSampler.Sample s now host (.ok ifs) (.ok counters) = (st, .ok snap))
    (ii : IfaceInfo) (hii : ii ∈ snap.ifaces) (c prev : IOCountersStat)
    (hc : (mkCur counters).lookup ii.name = some c)
    (hp : s.last.lookup ii.name = some prev) :
    (0 < now - s.lastAt →
      ii.rxBps = (u64sub c.bytesRecv prev.bytesRecv : ℚ) / (now - s.lastAt) ∧
      ii.txBps = (u64sub c.bytesSent prev.bytesSent : ℚ) / (now - s.lastAt)) ∧
    (now - s.lastAt ≤ 0 →
      ii.rxBps = (u64sub c.bytesRecv prev.bytesRecv : ℚ) / 1 ∧
      ii.txBps = (u64sub c.bytesSent prev.bytesSent : ℚ) / 1) := by
  rw [Sample_ok_eq] at hrun
  have hsnap := Except.ok.inj (congrArg Prod.snd hrun)
  rw [← hsnap] at hii
  simp only [List.mem_map] at hii
  obtain ⟨nif, _, hnif⟩ := hii
  have hname : nif.name = ii.name := by rw [← hnif, mkIfaceInfo_name]
  rw [← hname] at hc hp
  have hr := mkIfaceInfo_rates s.last (mkCur counters) (clampDt (now - s.lastAt)) nif c prev hc hp
  rw [hnif] at hr
  constructor
  · intro hpos
    rw [clampDt_pos _ hpos] at hr
    exact hr
  · intro hneg
    rw [clampDt_nonpos _ hneg] at hr
    exact hr

/-- C1 witness: the amended theorem applied to a concrete call with
Δt = 1/2: the RX rate of the produced interface row is the counter delta
divided by 1/2 itself. -/
theorem sample_divisor_amended_witness :
    (mkIfaceInfo [("eth0", { name := "eth0", bytesRecv := 0, bytesSent := 0 })]
        (mkCur [{ name := "eth0", bytesRecv := 100, bytesSent := 200 }])
        (clampDt ((10 + 1 / 2) - (10 : ℚ)))
        { name := "eth0", mtu := 1500, hardware := "", isUp := true, addrs := [] }).rxBps
      = (u64sub 100 0 : ℚ) / ((10 + 1 / 2) - 10) := by
  exact (sample_divisor_amended
    { last := [("eth0", { name := "eth0", bytesRecv := 0, bytesSent := 0 })], lastAt := 10 }
    (10 + 1 / 2) none
    [{ name := "eth0", mtu := 1500, hardware := "", isUp := true, addrs := [] }]
    [{ name := "eth0", bytesRecv := 100, bytesSent := 200 }]
    _ _ rfl _ (by simp [Sample_ok_eq])
    { name := "eth0", bytesRecv := 100, bytesSent := 200 }
    { name := "eth0", bytesRecv := 0, bytesSent := 0 }
    (by rw [mkIfaceInfo_name]; rfl) (by rw [mkIfaceInfo_name]; rfl)).1
    (by norm_num) |>.1

/-- C2: across two consecutive successful `Sample` calls, an interface
name with counter rows `c1` then `c2` and elapsed time `t2 - t1 ≥ 1`
gets rates `(c2 - c1) / (t2 - t1)` exactly (rate arithmetic modelled
over exact rationals), and any interface with no retained counters from
a prior call gets rate 0 regardless of its cumulative totals. -/
theorem sample_rate_and_cold_start
    (s0 : NetSampler) (t1 t2 : ℚ) (h1 h2 : Option (String × ℚ))
    (ifs1 ifs2 : List GoNetInterface) (cs1 cs2 : List IOCountersStat)
    (s1 st2 : NetSampler) (snap1 snap2 : NetSnapshot)
    (hrun1 : NetSampler.Sample s0 t1 h1 (.ok ifs1) (.ok cs1) = (s1, .ok snap1))
    (hrun2 : NetSampler.Sample s1 t2 h2 (.ok ifs2) (.ok cs2) = (st2, .ok snap2))
    (name : String) (c1 c2 : IOCountersStat)
    (hc1 : (mkCur cs1).lookup name = some c1)
    (hc2 : (mkCur cs2).lookup name = some c2)
    (hdt : 1 ≤ t2 - t1)
    (hrx : c1.bytesRecv ≤ c2.bytesRecv) (htx : c1.bytesSent ≤ c2.bytesSent)
    (hrx64 : c2.bytesRecv < 2 ^ 64) (htx64 : c2.bytesSent < 2 ^ 64) :
    (∀ ii ∈ snap2.ifaces, ii.name = name →
      ii.rxBps = ((c2.bytesRecv : ℚ) - c1.bytesRecv) / (t2 - t1) ∧
      ii.txBps = ((c2.bytesSent : ℚ) - c1.bytesSent) / (t2 - t1)) ∧
    (∀ (s : NetSampler) (now : ℚ) (host : Option (String × ℚ))
       (ifs : List GoNetInterface) (cs : List IOCountersStat)
       (st : NetSampler) (snap : NetSnapshot),
      NetSampler.Sample s now host (.ok ifs) (.ok cs) = (st, .ok snap) →
      ∀ ii ∈ snap.ifaces, s.last.lookup ii.name = none →
        ii.rxBps = 0 ∧ ii.txBps = 0) := by
  constructor
  · rw [Sample_ok_eq] at hrun1 hrun2
    have hs1 : ({ last := mkCur cs1, lastAt := t1 } : NetSampler) = s1 :=
      congrArg Prod.fst hrun1
    have hsnap2 := Except.ok.inj (congrArg Prod.snd hrun2)
    intro ii hii hname
    rw [← hsnap2] at hii
    simp only [List.mem_map] at hii
    obtain ⟨nif, _, hnif⟩ := hii
    have hnn : nif.name = name := by rw [← hname, ← hnif, mkIfaceInfo_name]
    have hlast : s1.last = mkCur cs1 := by rw [← hs1]
    have hlastAt : s1.lastAt = t1 := by rw [← hs1]
    have hc : (mkCur cs2).lookup nif.name = some c2 := by rw [hnn]; exact hc2
    have hp : s1.last.lookup nif.name = some c1 := by rw [hlast, hnn]; exact hc1
    have hr := mkIfaceInfo_rates s1.last (mkCur cs2) (clampDt (t2 - s1.lastAt)) nif c2 c1 hc hp
    rw [hnif, hlastAt, clampDt_pos _ (by linarith)] at hr
    rw [u64sub_of_le _ _ hrx hrx64, u64sub_of_le _ _ htx htx64] at hr
    rw [Nat.cast_sub hrx, Nat.cast_sub htx] at hr
    exact hr
  · intro s now host ifs cs st snap hrun ii hii hp
    rw [Sample_ok_eq] at hrun
    have hsnap := Except.ok.inj (congrArg Prod.snd hrun)
    rw [← hsnap] at hii
    simp only [List.mem_map] at hii
    obtain ⟨nif, _, hnif⟩ := hii
    have hname : nif.name = ii.name := by rw [← hnif, mkIfaceInfo_name]
    rw [← hname] at hp
    have := mkIfaceInfo_cold s.last (mkCur cs) (clampDt (now - s.lastAt)) nif hp
    rw [hnif] at this
    exact this

/-- C2 witness: the spec's end-to-end scenario — totals (1000, 2000) at
t = 10 and (3000, 6000) at t = 12 give RX 1000 B/s and TX 2000 B/s. -/
theorem sample_rate_and_cold_start_witness :
    ((mkIfaceInfo (mkCur [{ name := "eth0", bytesRecv := 1000, bytesSent := 2000 }])
        (mkCur [{ name := "eth0", bytesRecv := 3000, bytesSent := 6000 }])
        (clampDt ((12 : ℚ) - 10))
        { name := "eth0", mtu := 1500, hardware := "", isUp := true, addrs := [] }).rxBps
        = ((3000 : ℚ) - 1000) / (12 - 10) ∧
     (mkIfaceInfo (mkCur [{ name := "eth0", bytesRecv := 1000, bytesSent := 2000 }])
        (mkCur [{ name := "eth0", bytesRecv := 3000, bytesSent := 6000 }])
        (clampDt ((12 : ℚ) - 10))
        { name := "eth0", mtu := 1500, hardware := "", isUp := true, addrs := [] }).txBps
        = ((6000 : ℚ) - 2000) / (12 - 10)) ∧
    ((3000 : ℚ) - 1000) / (12 - 10) = 1000 ∧ ((6000 : ℚ) - 2000) / (12 - 10) = 2000 := by
  refine ⟨?_, by norm_num, by norm_num⟩
  refine (sample_rate_and_cold_start
    NewNetSampler 10 12 none none
    [{ name := "eth0", mtu := 1500, hardware := "", isUp := true, addrs := [] }]
    [{ name := "eth0", mtu := 1500, hardware := "", isUp := true, addrs := [] }]
    [{ name := "eth0", bytesRecv := 1000, bytesSent := 2000 }]
    [{ name := "eth0", bytesRecv := 3000, bytesSent := 6000 }]
    { last := mkCur [{ name := "eth0", bytesRecv := 1000, bytesSent := 2000 }], lastAt := 10 }
    _ _ _ rfl rfl "eth0" _ _ rfl rfl (by norm_num) (by norm_num) (by norm_num)
    (by norm_num) (by norm_num)).1 _ (by simp [Sample_ok_eq]) (by rw [mkIfaceInfo_name])

/-- C4: a `Sample` call that returns an error leaves the sampler's
retained last-counters map and last-sample timestamp exactly as they
were; a call that returns a snapshot replaces them with this call's
counters map and timestamp. -/
theorem sample_state_integrity (s : NetSampler) (now : ℚ)
    (host : Option (String × ℚ)) (ifsRes : Except GoErr (List GoNetInterface))
    (countersRes : Except GoErr (List IOCountersStat)) :
    (∀ e, (NetSampler.Sample s now host ifsRes countersRes).2 = .error e →
      (NetSampler.Sample s now host ifsRes countersRes).1 = s) ∧
    (∀ snap, (NetSampler.Sample s now host ifsRes countersRes).2 = .ok snap →
      ∃ counters, countersRes = .ok counters ∧
        (NetSampler.Sample s now host ifsRes countersRes).1 =
          { last := mkCur counters, lastAt := now }) := by
  cases ifsRes with
  | error e0 =>
    refine ⟨fun e h => rfl, fun snap h => ?_⟩
    simp [NetSampler.Sample] at h
  | ok ifs =>
    cases countersRes with
    | error e0 =>
      refine ⟨fun e h => rfl, fun snap h => ?_⟩
      simp [NetSampler.Sample] at h
    | ok counters =>
      refine ⟨fun e h => ?_, fun snap h => ⟨counters, rfl, rfl⟩⟩
      simp [NetSampler.Sample] at h

/-- C4 witness: a failing interface enumeration leaves a concrete
sampler state untouched. -/
theorem sample_state_integrity_witness :
    (NetSampler.Sample
      { last := [("eth0", { name := "eth0", bytesRecv := 7, bytesSent := 9 })], lastAt := 3 }
      5 none (.error "boom") (.ok [])).1
      = { last := [("eth0", { name := "eth0", bytesRecv := 7, bytesSent := 9 })], lastAt := 3 } :=
  (sample_state_integrity
    { last := [("eth0", { name := "eth0", bytesRecv := 7, bytesSent := 9 })], lastAt := 3 }
    5 none (.error "boom") (.ok [])).1 "boom" rfl

theorem clampHistory_eq_takeLast {α : Type} (s : List α) (cap : Int) (h : 0 < cap) :
    ClampHistory s cap = takeLast cap.toNat s := by
  unfold ClampHistory takeLast
  rw [if_neg (by omega)]
  by_cases hlen : (s.length : Int) ≤ cap
  · rw [if_pos hlen]
    have : s.length - cap.toNat = 0 := by omega
    rw [this, List.drop_zero]
  · rw [if_neg hlen]

theorem takeLast_append {α : Type} (n : Nat) (xs ys : List α) :
    takeLast n (xs ++ ys) =
      if n ≤ ys.length then takeLast n ys else takeLast (n - ys.length) xs ++ ys := by
  unfold takeLast
  rw [List.length_append]
  by_cases h : n ≤ ys.length
  · rw [if_pos h]
    have harith : xs.length + ys.length - n = xs.length + (ys.length - n) := by omega
    rw [harith, List.drop_append]
  · rw [if_neg h]
    have harith : xs.length + ys.length - n = xs.length - (n - ys.length) := by omega
    rw [harith, List.drop_append_of_le_length (by omega)]

theorem takeLast_takeLast {α : Type} (a n : Nat) (xs : List α) (h : a ≤ n) :
    takeLast a (takeLast n xs) = takeLast a xs := by
  unfold takeLast
  rw [List.length_drop, List.drop_drop]
  congr 1
  omega

theorem takeLast_takeLast_append {α : Type} (n : Nat) (xs ys : List α) :
    takeLast n (takeLast n xs ++ ys) = takeLast n (xs ++ ys) := by
  rw [takeLast_append, takeLast_append]
  by_cases h : n ≤ ys.length
  · rw [if_pos h, if_pos h]
  · rw [if_neg h, if_neg h, takeLast_takeLast _ _ _ (by omega)]

theorem clampFold_eq_takeLast (cap : Int) (hcap : 0 < cap) :
    ∀ (vs : List ℚ) (b : List ℚ), vs ≠ [] →
      vs.foldl (fun acc v => ClampHistory (acc ++ [v]) cap) b = takeLast cap.toNat (b ++ vs)
  | [], _, hvs => absurd rfl hvs
  | [v], b, _ => by
    simp only [List.foldl]
    rw [clampHistory_eq_takeLast _ _ hcap]
  | v :: w :: ws, b, _ => by
    have step : (v :: w :: ws).foldl (fun acc v0 => ClampHistory (acc ++ [v0]) cap) b
        = (w :: ws).foldl (fun acc v0 => ClampHistory (acc ++ [v0]) cap)
            (ClampHistory (b ++ [v]) cap) := rfl
    rw [step, clampFold_eq_takeLast cap hcap (w :: ws) _ (by simp),
      clampHistory_eq_takeLast _ _ hcap, takeLast_takeLast_append,
      List.append_assoc]
    rfl

/-- C6: for every cap > 0, appending more than `cap` samples to a
history buffer, clamping with `ClampHistory` after each append (the
snapshot handler's discipline), leaves exactly the last `cap` appended
values in order — whatever the starting buffer held. -/
theorem history_bound (cap : Int) (b vs : List ℚ) (hcap : 0 < cap)
    (hN : cap.toNat < vs.length) :
    (vs.foldl (fun acc v => ClampHistory (acc ++ [v]) cap) b).length = cap.toNat ∧
    vs.foldl (fun acc v => ClampHistory (acc ++ [v]) cap) b
      = vs.drop (vs.length - cap.toNat) := by
  have hvs : vs ≠ [] := by
    intro h
    rw [h] at hN
    simp at hN
  rw [clampFold_eq_takeLast cap hcap vs b hvs, takeLast_append,
    if_pos (le_of_lt hN)]
  unfold takeLast
  refine ⟨?_, rfl⟩
  rw [List.length_drop]
  omega

/-- C6 witness: cap 3, five appended samples, buffer ends as the last
three in order. -/
theorem history_bound_witness :
    (([1, 2, 3, 4, 5] : List ℚ).foldl
        (fun acc v => ClampHistory (acc ++ [v]) 3) []).length = (3 : Int).toNat ∧
    ([1, 2, 3, 4, 5] : List ℚ).foldl (fun acc v => ClampHistory (acc ++ [v]) 3) []
      = ([1, 2, 3, 4, 5] : List ℚ).drop (([1, 2, 3, 4, 5] : List ℚ).length - (3 : Int).toNat) :=
  history_bound 3 [] [1, 2, 3, 4, 5] (by norm_num) (by norm_num)

theorem appendHistory_selected (m3 : UiModel) (snap : NetSnapshot) :
    (appendSelectedHistory m3 snap).selectedIface = m3.selectedIface := by
  unfold appendSelectedHistory
  cases snap.ifaces.find? (fun ii => ii.name = m3.selectedIface) <;> rfl

theorem reconcile_selected_ne (m2 : UiModel) (prevSel : String) (prevIndex : Nat)
    (hp : m2.selectedIface = prevSel) (h : m2.selectedIface ≠ "") :
    (reconcileSelection m2 prevSel prevIndex).selectedIface = m2.selectedIface := by
  unfold reconcileSelection
  rw [if_neg (by tauto)]
  rw [if_pos (by rw [← hp]; exact h)]
  cases m2.listItems.findIdx? (fun n => n = prevSel) <;> rfl

theorem applySnap_selected_of_ne (m : UiModel) (snap : NetSnapshot)
    (h : m.selectedIface ≠ "") :
    (applySnap m snap).selectedIface = m.selectedIface := by
  unfold applySnap
  rw [appendHistory_selected]
  exact reconcile_selected_ne _ _ _ rfl h

theorem applySnap_selected_of_empty_cons (m : UiModel) (snap : NetSnapshot)
    (h : m.selectedIface = "") (hne : snap.ifaces.map (fun ii => ii.name) ≠ []) :
    (applySnap m snap).selectedIface = (snap.ifaces.map (fun ii => ii.name)).getD 0 "" := by
  unfold applySnap
  rw [appendHistory_selected]
  unfold reconcileSelection
  rw [if_pos ⟨h, hne⟩]

theorem applySnap_selected_of_empty_nil (m : UiModel) (snap : NetSnapshot)
    (h : m.selectedIface = "") (hnil : snap.ifaces = []) :
    (applySnap m snap).selectedIface = "" := by
  unfold applySnap
  rw [appendHistory_selected]
  unfold reconcileSelection
  rw [hnil]
  rw [if_neg (by simp)]
  rw [if_neg (by simp [h])]
  rw [if_neg (by simp)]
  exact h

/-- A concrete model state with `eth0` selected (for the C3 analysis). -/
def uiModelC3 : UiModel :=
  { w := 100, selectedIface := "eth0", rxHist := [], txHist := [],
    listItems := ["eth0"], listIndex := 0,
    lastSnap := { hostname := "", uptime := 0, ifaces := [], takenAt := 0 },
    err := none, ports := [], procs := [],
    externalIP := "", externalIPErr := none, externalIPUpdatedAt := 0 }

/-- A snapshot whose interface list is `[wlan0]` (no `eth0`). -/
def snapC3 : NetSnapshot :=
  { hostname := "h", uptime := 0,
    ifaces := [{ name := "wlan0", mtu := 1500, hardware := "", addrs := [],
                 isUp := true, rxBps := 0, txBps := 0, rxTotal := 0, txTotal := 0,
                 kind := .physical }],
    takenAt := 1 }

/-- C3 counterexample: with `eth0` selected and a new non-empty snapshot
that does not contain it, the claim says the selection resets to the
first interface `wlan0`; the handler instead leaves the stale name
`eth0` selected. -/
theorem snap_reconcile_cex :
    uiModelC3.selectedIface = "eth0" ∧
    snapC3.ifaces.map (fun ii => ii.name) = ["wlan0"] ∧
    "eth0" ∉ snapC3.ifaces.map (fun ii => ii.name) ∧
    (applySnap uiModelC3 snapC3).selectedIface ≠ "wlan0" ∧
    (applySnap uiModelC3 snapC3).selectedIface = "eth0" := by
  refine ⟨rfl, rfl, by decide, by decide, by decide⟩

/-- C3 (amended): a snapshot message never changes a non-empty selected
name — in particular it is preserved when the name still occurs in the
new list, but when the name is absent the stale selection is retained
rather than reset to the first interface; when no selection exists, a
non-empty list selects its first interface and an empty list leaves the
selection empty. -/
theorem snap_selection_reconciliation (m : UiModel) (snap : NetSnapshot) :
    (m.selectedIface ≠ "" → (applySnap m snap).selectedIface = m.selectedIface) ∧
    (m.selectedIface = "" → snap.ifaces.map (fun ii => ii.name) ≠ [] →
      (applySnap m snap).selectedIface = (snap.ifaces.map (fun ii => ii.name)).getD 0 "") ∧
    (m.selectedIface = "" → snap.ifaces = [] →
      (applySnap m snap).selectedIface = "") :=
  ⟨applySnap_selected_of_ne m snap,
   applySnap_selected_of_empty_cons m snap,
   applySnap_selected_of_empty_nil m snap⟩

/-- A concrete model state (selection `eth0`, some history) used to
witness the C3 and C7 theorems on the `[wlan0, eth0]` snapshot where
`eth0` moved to the second position. -/
def uiModelW : UiModel :=
  { w := 100, selectedIface := "eth0", rxHist := [5], txHist := [7],
    listItems := ["eth0", "wlan0"], listIndex := 0,
    lastSnap := { hostname := "", uptime := 0, ifaces := [], takenAt := 0 },
    err := none, ports := [], procs := [],
    externalIP := "", externalIPErr := none, externalIPUpdatedAt := 0 }

/-- A snapshot listing `wlan0` then `eth0`. -/
def snapW : NetSnapshot :=
  { hostname := "h", uptime := 0,
    ifaces := [{ name := "wlan0", mtu := 1500, hardware := "", addrs := [],
                 isUp := true, rxBps := 0, txBps := 0, rxTotal := 0, txTotal := 0,
                 kind := .physical },
               { name := "eth0", mtu := 1500, hardware := "", addrs := [],
                 isUp := true, rxBps := 3, txBps := 4, rxTotal := 0, txTotal := 0,
                 kind := .physical }],
    takenAt := 1 }

/-- C3 witness: selection `eth0` survives a snapshot in which `eth0`
occurs at a different position. -/
theorem snap_selection_reconciliation_witness :
    (applySnap uiModelW snapW).selectedIface = uiModelW.selectedIface :=
  (snap_selection_reconciliation uiModelW snapW).1 (by decide)

/-- C7: in any single model update step that changes the selected
interface identity from one name to a different one, both the RX and the
TX history buffers are emptied in that same step. -/
theorem selection_change_clears_both (m : UiModel) (now : ℚ) (msg : Msg)
    (hA : m.selectedIface ≠ "")
    (hch : (m.update now msg).selectedIface ≠ m.selectedIface) :
    (m.update now msg).rxHist = [] ∧ (m.update now msg).txHist = [] := by
  cases msg with
  | snap s => exact absurd (applySnap_selected_of_ne m s hA) hch
  | errM e => exact absurd rfl hch
  | extIP ip err => cases err with
    | none => exact absurd rfl hch
    | some e => exact absurd rfl hch
  | ports ps => exact absurd rfl hch
  | procs ps => exact absurd rfl hch
  | ifaceNav i =>
    have hch2 : (applyIfaceNav m i).selectedIface ≠ m.selectedIface := hch
    show (applyIfaceNav m i).rxHist = [] ∧ (applyIfaceNav m i).txHist = []
    have hred : applyIfaceNav m i =
        (match m.listItems.get? i with
         | some name =>
           if m.selectedIface ≠ name then
             { m with listIndex := i, selectedIface := name, rxHist := [], txHist := [] }
           else { m with listIndex := i }
         | none => { m with listIndex := i }) := rfl
    rw [hred] at hch2 ⊢
    cases hget : m.listItems.get? i with
    | none =>
      rw [hget] at hch2
      exact absurd rfl hch2
    | some name =>
      rw [hget] at hch2
      by_cases hne : m.selectedIface = name
      · simp [hne] at hch2
      · simp [hne]

/-- C7 witness: navigating the interface list from `eth0` to `wlan0`
clears both buffers in that step. -/
theorem selection_change_clears_both_witness :
    (uiModelW.update 0 (.ifaceNav 1)).rxHist = [] ∧
    (uiModelW.update 0 (.ifaceNav 1)).txHist = [] :=
  selection_change_clears_both uiModelW 0 (.ifaceNav 1) (by decide) (by decide)

/-- C9: an external-IP result carrying an error updates only the
external-IP error slot — the resolved IP, its last-success timestamp,
the network-view error and every other model field are untouched — while
a success stores the IP, clears the external-IP error, stamps the
success time and likewise leaves the network-view error alone. -/
theorem extip_error_isolation (m : UiModel) (now : ℚ) (ip : String) (e : GoErr) :
    ((m.update now (.extIP ip (some e))).externalIPErr = some e ∧
     (m.update now (.extIP ip (some e))).externalIP = m.externalIP ∧
     (m.update now (.extIP ip (some e))).externalIPUpdatedAt = m.externalIPUpdatedAt ∧
     (m.update now (.extIP ip (some e))).err = m.err ∧
     (m.update now (.extIP ip (some e))).selectedIface = m.selectedIface ∧
     (m.update now (.extIP ip (some e))).rxHist = m.rxHist ∧
     (m.update now (.extIP ip (some e))).txHist = m.txHist ∧
     (m.update now (.extIP ip (some e))).lastSnap = m.lastSnap ∧
     (m.update now (.extIP ip (some e))).ports = m.ports ∧
     (m.update now (.extIP ip (some e))).procs = m.procs) ∧
    ((m.update now (.extIP ip none)).externalIP = ip ∧
     (m.update now (.extIP ip none)).externalIPErr = none ∧
     (m.update now (.extIP ip none)).externalIPUpdatedAt = now ∧
     (m.update now (.extIP ip none)).err = m.err) :=
  ⟨⟨rfl, rfl, rfl, rfl, rfl, rfl, rfl, rfl, rfl, rfl⟩, rfl, rfl, rfl, rfl⟩

theorem procLEP_iff (a b : ProcNet) :
    procLEP a b ↔
      b.connCount < a.connCount ∨ (a.connCount = b.connCount ∧ a.pid ≤ b.pid) := by
  unfold procLEP procLE
  by_cases h : a.connCount = b.connCount <;> simp [h]

instance : IsTrans ProcNet procLEP :=
  ⟨by
    intro a b c hab hbc
    rw [procLEP_iff] at *
    omega⟩

instance : IsTotal ProcNet procLEP :=
  ⟨by
    intro a b
    rw [procLEP_iff, procLEP_iff]
    omega⟩

/-- The ranking key of the claim as a strict order: connection count
descending, ties broken by strictly ascending pid. -/
def procRank (a b : ProcNet) : Prop :=
  b.connCount < a.connCount ∨ (a.connCount = b.connCount ∧ a.pid < b.pid)

theorem bumpProc_pids (l : List ProcNet) (pid : Int) (lis : Bool) :
    (bumpProc l pid lis).map (fun p => p.pid) =
      if pid ∈ l.map (fun p => p.pid) then l.map (fun p => p.pid)
      else l.map (fun p => p.pid) ++ [pid] := by
  induction l with
  | nil => simp [bumpProc]
  | cons p t ih =>
    by_cases hp : p.pid = pid
    · simp [bumpProc, hp]
    · simp only [bumpProc, if_neg hp, List.map_cons, ih, List.mem_cons]
      have hne : ¬pid = p.pid := fun h => hp h.symm
      by_cases hmem : pid ∈ t.map (fun p => p.pid)
      · rw [if_pos hmem, if_pos (Or.inr hmem)]
      · rw [if_neg hmem, if_neg (by tauto), List.cons_append]

theorem nodup_pids_agg_aux :
    ∀ (conns : List ConnectionStat) (acc : List ProcNet),
      (acc.map (fun p => p.pid)).Nodup →
      ((conns.foldl
          (fun acc c =>
            if c.pid ≤ 0 then acc else bumpProc acc c.pid (c.status = "LISTEN")) acc).map
        (fun p => p.pid)).Nodup
  | [], _, h => h
  | c :: t, acc, h => by
    simp only [List.foldl]
    apply nodup_pids_agg_aux t
    by_cases hc : c.pid ≤ 0
    · rw [if_pos hc]; exact h
    · rw [if_neg hc, bumpProc_pids]
      by_cases hmem : c.pid ∈ acc.map (fun p => p.pid)
      · rw [if_pos hmem]; exact h
      · rw [if_neg hmem]
        simp [List.nodup_append, h, hmem]

theorem aggConns_pids_nodup (conns : List ConnectionStat) :
    ((aggConns conns).map (fun p => p.pid)).Nodup :=
  nodup_pids_agg_aux conns [] (by simp)

theorem fillProcName_pid (resolve : Int → Option String) (p : ProcNet) :
    (fillProcName resolve p).pid = p.pid := by
  unfold fillProcName
  split_ifs <;> rfl

theorem map_pid_fill (resolve : Int → Option String) (l : List ProcNet) :
    (l.map (fillProcName resolve)).map (fun p => p.pid) = l.map (fun p => p.pid) := by
  induction l with
  | nil => rfl
  | cons p t ih => simp [fillProcName_pid, ih]

/-- C8: `TopProcsByConnections` returns entries sorted by connection
count descending with ties broken by strictly ascending pid, and with
`limit > 0` it returns at most `limit` entries — a prefix of that sorted
order. -/
theorem topProcs_order (limit : Int) (resolve : Int → Option String)
    (conns : List ConnectionStat) (hl : 0 < limit) :
    List.Pairwise procRank (TopProcsByConnections limit resolve conns) ∧
    ((TopProcsByConnections limit resolve conns).length : Int) ≤ limit ∧
    (∃ rest, TopProcsByConnections limit resolve conns ++ rest =
      ((aggConns conns).map (fillProcName resolve)).insertionSort procLEP) := by
  have hsorted0 : List.Pairwise procLEP
      (((aggConns conns).map (fillProcName resolve)).insertionSort procLEP) :=
    List.sorted_insertionSort procLEP _
  have hperm :=
    List.perm_insertionSort procLEP ((aggConns conns).map (fillProcName resolve))
  have hnodup : ((((aggConns conns).map (fillProcName resolve)).insertionSort
      procLEP).map (fun p => p.pid)).Nodup := by
    refine ((hperm.map (fun p => p.pid)).nodup_iff).mpr ?_
    rw [map_pid_fill]
    exact aggConns_pids_nodup conns
  have hpairne : List.Pairwise (fun a b : ProcNet => a.pid ≠ b.pid)
      (((aggConns conns).map (fillProcName resolve)).insertionSort procLEP) :=
    List.pairwise_map.mp hnodup
  have hstrict : List.Pairwise procRank
      (((aggConns conns).map (fillProcName resolve)).insertionSort procLEP) := by
    refine (List.Pairwise.and hsorted0 hpairne).imp ?_
    intro a b hab
    obtain ⟨hle, hne⟩ := hab
    rw [procLEP_iff] at hle
    unfold procRank
    omega
  have htop : TopProcsByConnections limit resolve conns =
      if 0 < limit ∧ limit < ((((aggConns conns).map
            (fillProcName resolve)).insertionSort procLEP).length : Int)
      then (((aggConns conns).map (fillProcName resolve)).insertionSort
        procLEP).take limit.toNat
      else ((aggConns conns).map (fillProcName resolve)).insertionSort procLEP := rfl
  rw [htop]
  by_cases hcase : 0 < limit ∧ limit < ((((aggConns conns).map
      (fillProcName resolve)).insertionSort procLEP).length : Int)
  · rw [if_pos hcase]
    refine ⟨List.Pairwise.sublist (List.take_sublist _ _) hstrict, ?_,
      ⟨(((aggConns conns).map (fillProcName resolve)).insertionSort
          procLEP).drop limit.toNat, List.take_append_drop _ _⟩⟩
    rw [List.length_take]
    omega
  · rw [if_neg hcase]
    refine ⟨hstrict, ?_, ⟨[], List.append_nil _⟩⟩
    omega

/-- Seven connections: pids 50 and 10 with three connections each, pid
99 with one listening connection (the claim's example). -/
def connsC8 : List ConnectionStat :=
  [{ typ := 1, status := "ESTABLISHED", laddrIP := "10.0.0.1", laddrPort := 1000, pid := 50 },
   { typ := 1, status := "ESTABLISHED", laddrIP := "10.0.0.1", laddrPort := 1001, pid := 50 },
   { typ := 1, status := "ESTABLISHED", laddrIP := "10.0.0.1", laddrPort := 1002, pid := 50 },
   { typ := 1, status := "ESTABLISHED", laddrIP := "10.0.0.1", laddrPort := 1003, pid := 10 },
   { typ := 1, status := "ESTABLISHED", laddrIP := "10.0.0.1", laddrPort := 1004, pid := 10 },
   { typ := 1, status := "ESTABLISHED", laddrIP := "10.0.0.1", laddrPort := 1005, pid := 10 },
   { typ := 1, status := "LISTEN", laddrIP := "0.0.0.0", laddrPort := 8080, pid := 99 }]

/-- C8 witness: counts [3, 3, 1] with pids [50, 10, 99] rank as pid 10,
pid 50, pid 99; the order theorem applies at limit 80. -/
theorem topProcs_order_witness :
    (List.Pairwise procRank (TopProcsByConnections 80 (fun _ => none) connsC8) ∧
     ((TopProcsByConnections 80 (fun _ => none) connsC8).length : Int) ≤ 80 ∧
     (∃ rest, TopProcsByConnections 80 (fun _ => none) connsC8 ++ rest =
       ((aggConns connsC8).map (fillProcName (fun _ => none))).insertionSort procLEP)) ∧
    (TopProcsByConnections 80 (fun _ => none) connsC8).map (fun p => p.pid) = [10, 50, 99] ∧
    (TopProcsByConnections 80 (fun _ => none) connsC8).map (fun p => p.connCount) = [3, 3, 1] :=
  ⟨topProcs_order 80 (fun _ => none) connsC8 (by norm_num), by decide, by decide⟩

/-- C10: `ListListening` keeps exactly the connections that are TCP
(stream) sockets with status `LISTEN` or UDP (datagram) sockets with a
non-zero local port — every such connection contributes its row to the
result, every row comes from such a connection, and no other socket type
is ever kept. -/
theorem listListening_characterization (resolve : Int → Option String)
    (conns : List ConnectionStat) :
    (∀ c ∈ conns, isListening c = true →
      toListenPort resolve c ∈ ListListening resolve conns) ∧
    (∀ p ∈ ListListening resolve conns,
      ∃ c ∈ conns, isListening c = true ∧ p = toListenPort resolve c) ∧
    (∀ c : ConnectionStat, isListening c = true ↔
      (c.typ = sockStream ∧ c.status = "LISTEN") ∨
      (c.typ = sockDgram ∧ c.laddrPort ≠ 0)) := by
  have hperm :=
    List.perm_insertionSort portLEP ((conns.filter isListening).map (toListenPort resolve))
  refine ⟨?_, ?_, ?_⟩
  · intro c hc hl
    refine (hperm.mem_iff).mpr ?_
    exact List.mem_map_of_mem _ (List.mem_filter.mpr ⟨hc, hl⟩)
  · intro p hp
    have hmem := (hperm.mem_iff).mp hp
    obtain ⟨c, hcmem, hceq⟩ := List.mem_map.mp hmem
    obtain ⟨hcin, hlis⟩ := List.mem_filter.mp hcmem
    exact ⟨c, hcin, hlis, hceq.symm⟩
  · intro c
    unfold isListening sockStream sockDgram
    split_ifs with h1 h2 <;> simp [*]

/-- A listening TCP socket row. -/
def connC10tcp : ConnectionStat :=
  { typ := 1, status := "LISTEN", laddrIP := "0.0.0.0", laddrPort := 80, pid := 7 }

/-- A raw (non-stream, non-datagram) socket row. -/
def connC10raw : ConnectionStat :=
  { typ := 3, status := "LISTEN", laddrIP := "0.0.0.0", laddrPort := 80, pid := 7 }

/-- C10 witness: the TCP LISTEN socket's row appears in the result of a
concrete enumeration, and the characterization applies to the raw
socket (which is never listening). -/
theorem listListening_characterization_witness :
    toListenPort (fun _ => none) connC10tcp
      ∈ ListListening (fun _ => none) [connC10tcp, connC10raw] ∧
    (isListening connC10raw = true ↔
      (connC10raw.typ = sockStream ∧ connC10raw.status = "LISTEN") ∨
      (connC10raw.typ = sockDgram ∧ connC10raw.laddrPort ≠ 0)) :=
  ⟨(listListening_characterization (fun _ => none) [connC10tcp, connC10raw]).1
      connC10tcp (List.mem_cons_self _ _) (by decide),
   (listListening_characterization (fun _ => none) [connC10tcp, connC10raw]).2.2 connC10raw⟩

theorem hlLoop_ea_stuck :
    ∀ f, hlLoop ['é', 'a'] [195, 169, 97] [97] 1 2 f = none
  | 0 => rfl
  | (g + 1) => by
    have h : hlLoop ['é', 'a'] [195, 169, 97] [97] 1 2 (g + 1)
        = (hlLoop ['é', 'a'] [195, 169, 97] [97] 1 2 g).map
            (fun rest => HlSeg.plain [] :: HlSeg.marked [] :: rest) := rfl
    rw [h, hlLoop_ea_stuck g]
    rfl

/-- C5: `highlightFold` is not rune-correct on multi-byte text — it
feeds byte offsets from `strings.Index` into slices of the rune array.
On `s = "éab"`, `q = "a"` it emits `"éa"` unhighlighted and then
highlights `"b"` (the match byte offset 2 read as a rune offset), instead
of highlighting the occurrence `"a"`; and on `s = "éa"`, `q = "a"` the
loop re-finds the match at an offset it has already consumed and never
terminates (`none` for every fuel bound). -/
theorem highlightFold_multibyte_bug :
    (highlightFold "éab" "a" 10
      = some [HlSeg.plain ['é', 'a'], HlSeg.marked ['b'], HlSeg.plain []]) ∧
    ([('b' : Char)].map goToLower ≠ ['a']) ∧
    (∀ fuel, highlightFold "éa" "a" fuel = none) := by
  refine ⟨by decide, by decide, ?_⟩
  intro fuel
  cases fuel with
  | zero => rfl
  | succ g =>
    have h1 : highlightFold "éa" "a" (g + 1)
        = (hlLoop ['é', 'a'] [195, 169, 97] [97] 1 2 g).map
            (fun rest => HlSeg.plain ['é', 'a'] :: HlSeg.marked [] :: rest) := rfl
    rw [h1, hlLoop_ea_stuck g]
    rfl
